import Mathlib

/-!
Verification of the connection-registry / relay / match-queue core of the
`unkuseni/backend` repository against its natural-language specification.

The TypeScript source is shallowly embedded: each mutable structure becomes an
explicit state value, each handler becomes a pure function from inputs (and the
results of its external collaborator calls) to the successor state and the list
of observable effects.  JavaScript exceptions are modelled with `Option` /
`Except`; JavaScript object identity (the `!==` test used by the queue's
`find` callbacks) is modelled by a `ref : Nat` field that is distinct for
distinct runtime objects.
-/

/-! ## Match queue (src/middleware/callQueue.ts)

`CallQueue` keeps three gender-keyed partitions.  `addToQueue` pushes onto
`queues[user.gender]` (a lookup that throws for a gender outside
male/female/other, modelled by `Option`), `removeFromQueue` deletes the first
entry with a matching id from every partition, and `getPair` scans partitions
in insertion order (male, female, other) looking for the first candidate with
a compatible partner. -/

structure QueueEntry where
  /-- Object identity of the queued record: the source compares candidates
  with `u !== user`, which distinguishes distinct runtime objects even when
  all their fields coincide.  Every enqueue allocates a fresh object, so
  distinct queue slots always carry distinct `ref`s. -/
  ref : Nat
  id : String
  isGuest : Bool
  socketId : String
  gender : String
  genderPreference : String
deriving DecidableEq, Repr

structure QueueState where
  male : List QueueEntry
  female : List QueueEntry
  other : List QueueEntry
deriving DecidableEq, Repr

def emptyQueues : QueueState := ⟨[], [], []⟩

/-- All queued entries, in the partition order used by `Object.entries` /
`Object.values` on the `queues` object literal (insertion order:
male, female, other). -/
def allEntries (s : QueueState) : List QueueEntry :=
  s.male ++ s.female ++ s.other

/-- `this.queues[g]`: the partition named `g`, or `none` when the index is not
one of the three keys (in JavaScript the lookup yields `undefined` and any
method call on it throws). -/
def lookupPartition (s : QueueState) (g : String) : Option (List QueueEntry) :=
  if g = "male" then some s.male
  else if g = "female" then some s.female
  else if g = "other" then some s.other
  else none

/-- `addToQueue(user)`: `this.queues[user.gender].push(user)`.  Returns `none`
exactly when `user.gender` names no partition, in which case the source throws
a `TypeError` instead of appending. -/
def addToQueue (u : QueueEntry) (s : QueueState) : Option QueueState :=
  if u.gender = "male" then some { s with male := s.male ++ [u] }
  else if u.gender = "female" then some { s with female := s.female ++ [u] }
  else if u.gender = "other" then some { s with other := s.other ++ [u] }
  else none

/-- One partition's part of `removeFromQueue`: `findIndex` + `splice(idx, 1)`
deletes the first entry whose id matches, if any. -/
def removeFirstById (uid : String) : List QueueEntry → List QueueEntry
  | [] => []
  | u :: rest => if u.id = uid then rest else u :: removeFirstById uid rest

/-- `removeFromQueue(userId)`: applied to every partition. -/
def removeFromQueue (uid : String) (s : QueueState) : QueueState :=
  ⟨removeFirstById uid s.male, removeFirstById uid s.female,
    removeFirstById uid s.other⟩

/-- The compatibility callback shared by `findAnyMatch` and
`findSpecificMatch`:
`u !== user && (u.genderPreference === "any" || u.genderPreference === user.gender)`. -/
def matchPred (user u : QueueEntry) : Bool :=
  (u.ref != user.ref) &&
    (u.genderPreference == "any" || u.genderPreference == user.gender)

/-- `findAnyMatch(user)`: scan every partition in order, returning the first
compatible entry. -/
def findAnyMatch (s : QueueState) (user : QueueEntry) : Option QueueEntry :=
  match s.male.find? (matchPred user) with
  | some m => some m
  | none =>
    match s.female.find? (matchPred user) with
    | some m => some m
    | none => s.other.find? (matchPred user)

/-- `findSpecificMatch(user, preferredGender)`: search only
`this.queues[preferredGender]`; `.error` models the `TypeError` thrown when
that partition does not exist. -/
def findSpecificMatch (s : QueueState) (user : QueueEntry)
    (preferredGender : String) : Except Unit (Option QueueEntry) :=
  match lookupPartition s preferredGender with
  | none => Except.error ()
  | some q => Except.ok (q.find? (matchPred user))

/-- The body of `getPair`'s nested loops for the entries of one partition:
for each `user1` in order, look for a partner (all partitions when the
preference is "any", otherwise only the preferred partition); on the first
hit remove both by id and return the ordered pair. -/
def scanEntries (s : QueueState) :
    List QueueEntry → Except Unit (Option ((QueueEntry × QueueEntry) × QueueState))
  | [] => Except.ok none
  | user1 :: rest =>
    match (if user1.genderPreference = "any"
           then Except.ok (findAnyMatch s user1)
           else findSpecificMatch s user1 user1.genderPreference) with
    | Except.error e => Except.error e
    | Except.ok (some m) =>
      Except.ok (some ((user1, m),
        removeFromQueue m.id (removeFromQueue user1.id s)))
    | Except.ok none => scanEntries s rest

/-- `getPair()`: scan the male, then female, then other partition; return the
first matched pair together with the queue state after the two removals, or
`none` when no pair exists this tick (the state is then untouched: the source
only mutates the queues through the two `removeFromQueue` calls on the success
path). -/
def getPair (s : QueueState) :
    Except Unit (Option ((QueueEntry × QueueEntry) × QueueState)) :=
  match scanEntries s s.male with
  | Except.error e => Except.error e
  | Except.ok (some r) => Except.ok (some r)
  | Except.ok none =>
    match scanEntries s s.female with
    | Except.error e => Except.error e
    | Except.ok (some r) => Except.ok (some r)
    | Except.ok none => scanEntries s s.other

/-- `getQueueLengths()`. -/
def getQueueLengths (s : QueueState) : Nat × Nat × Nat :=
  (s.male.length, s.female.length, s.other.length)

/-- The intended queue invariant: every queued identity occurs at most once
across the three partitions. -/
def UniqueIds (s : QueueState) : Prop :=
  (allEntries s).Pairwise (fun a b => a.id ≠ b.id)

instance (s : QueueState) : Decidable (UniqueIds s) := by
  unfold UniqueIds; infer_instance

/-! ## Connection registry (src/services/chatService.ts)

`connectedUsers` is a JavaScript `Map` from username to
`{ socket, isGuest }`.  A `Map` is embedded as an association list with the
`Map.set` semantics: overwrite in place when the key is present, append
otherwise; `Map.delete` drops the (unique) entry with the key. -/

structure Session where
  socketId : String
  isGuest : Bool
deriving DecidableEq, Repr

/-- `Map.prototype.set`: replace the value of an existing key in place,
otherwise append the new entry. -/
def mapSet {α : Type} (k : String) (v : α) :
    List (String × α) → List (String × α)
  | [] => [(k, v)]
  | (k0, v0) :: rest =>
    if k0 = k then (k, v) :: rest else (k0, v0) :: mapSet k v rest

/-- `Map.prototype.delete`: drop the first entry with the key. -/
def mapDelete {α : Type} (k : String) :
    List (String × α) → List (String × α)
  | [] => []
  | (k0, v0) :: rest =>
    if k0 = k then rest else (k0, v0) :: mapDelete k rest

/-- `Map.prototype.get`. -/
def mapLookup {α : Type} (k : String) : List (String × α) → Option α
  | [] => none
  | (k0, v0) :: rest => if k0 = k then some v0 else mapLookup k rest

/-- The keys of the association list, in insertion order. -/
def keysOf {α : Type} (r : List (String × α)) : List String :=
  r.map Prod.fst

/-- The registry operations the spec quantifies over: `register` is the
`connectedUsers.set` performed by the authenticate handler, `unregister` the
`connectedUsers.delete` performed by the disconnect handler. -/
inductive RegOp where
  | register (identity : String) (socketId : String) (isGuest : Bool)
  | unregister (identity : String)
deriving DecidableEq, Repr

def applyRegOp (r : List (String × Session)) : RegOp → List (String × Session)
  | RegOp.register id sid g => mapSet id ⟨sid, g⟩ r
  | RegOp.unregister id => mapDelete id r

/-- Run a sequence of register/unregister operations from the empty registry. -/
def applyRegOps (ops : List RegOp) : List (String × Session) :=
  ops.foldl applyRegOp []

/-! ## Chat server state: registry plus the per-socket `username` field

`socket.username` is a mutable field the authenticate handler writes; the
disconnect handler reads it to decide which identity to unregister.  It is
embedded as a second map from socket id to the username last stored on that
socket. -/

structure ChatState where
  connectedUsers : List (String × Session)
  socketUsername : List (String × String)
deriving DecidableEq, Repr

def initialChatState : ChatState := ⟨[], []⟩

/-- The state mutation of a successful `authenticate`:
`socket.username = decoded.username` and
`connectedUsers.set(decoded.username, { socket, isGuest })`. -/
def authenticateRegister (sid username : String) (isGuest : Bool)
    (st : ChatState) : ChatState :=
  { connectedUsers := mapSet username ⟨sid, isGuest⟩ st.connectedUsers,
    socketUsername := mapSet sid username st.socketUsername }

/-- The `disconnect` handler: `if (socket.username)` (truthy test, so the
empty string is skipped) `connectedUsers.delete(socket.username)`. -/
def handleDisconnect (sid : String) (st : ChatState) : ChatState :=
  match mapLookup sid st.socketUsername with
  | none => st
  | some u =>
    if u = "" then st
    else { st with connectedUsers := mapDelete u st.connectedUsers }

/-! ## The `message` handler (src/services/chatService.ts, lines 145-217)

The handler's externally visible behaviour is a sequence of actions: attempted
persistence writes and events emitted to sockets.  The results of the
collaborator calls (conversation lookup, recipient lookup, the three `save`
calls) are supplied by a `MessageOracle`; a `false`/`error` result makes the
corresponding `await` reject, which lands in the `catch` block. -/

structure Conv where
  participants : List String
deriving DecidableEq, Repr

structure MsgData where
  /-- `data.conversationId`; the empty string models a missing/falsy id,
  mirroring the source's truthy test `if (data.conversationId)`. -/
  conversationId : String
  content : String
  recipientUsername : String
deriving DecidableEq, Repr

structure MessageOracle where
  /-- Result of `Conversation.findById`: `.error` a rejected promise,
  `.ok none` a null result, `.ok (some c)` a found conversation. -/
  findConversation : Except Unit (Option Conv)
  /-- Result of `getUserByUsername(data.recipientUsername)`. -/
  recipientLookup : Option String
  /-- Whether the `conversation.save()` on the creation path succeeds. -/
  saveNewConversation : Bool
  /-- Whether `message.save()` succeeds. -/
  saveMessage : Bool
  /-- Whether the `conversation.save()` persisting the last-message pointer
  and timestamp succeeds. -/
  updateConversation : Bool
deriving Repr

inductive WriteOp where
  | saveConversation
  | saveMessage
  | updateConversation
deriving DecidableEq, Repr

inductive MsgEmit where
  | newMessage (recipient : String)
  | messageSent
  | messageError
deriving DecidableEq, Repr

inductive RelayAction where
  | write (w : WriteOp)
  | emit (e : MsgEmit)
deriving DecidableEq, Repr

/-- The fan-out loop: `new_message` to every participant other than the
sender whose identity has a live entry in `connectedUsers`. -/
def fanOut (participants : List String) (sender : String)
    (connected : List String) : List RelayAction :=
  participants.filterMap fun p =>
    if p != sender && connected.contains p then
      some (RelayAction.emit (MsgEmit.newMessage p))
    else none

/-- The tail of the `try` block once a conversation is in hand:
`message.save()`, then the conversation update `save()`, then the fan-out
loop, then `message_sent`; a rejection at either `await` jumps to the `catch`
block, which emits `message_error` and nothing else. -/
def persistAndFanOut (sender : String) (conv : Conv) (o : MessageOracle)
    (connected : List String) : List RelayAction :=
  if o.saveMessage then
    RelayAction.write WriteOp.saveMessage ::
      (if o.updateConversation then
        RelayAction.write WriteOp.updateConversation ::
          (fanOut conv.participants sender connected ++
            [RelayAction.emit MsgEmit.messageSent])
      else [RelayAction.write WriteOp.updateConversation,
            RelayAction.emit MsgEmit.messageError])
  else [RelayAction.write WriteOp.saveMessage, RelayAction.emit MsgEmit.messageError]

/-- The whole `message` event handler.  `userInfo` is the result of
`getUserInfoFromSocket`; a missing session or a guest session takes the
`else` branch and emits only the guest `message_error`. -/
def messageHandler (userInfo : Option (String × Bool)) (data : MsgData)
    (o : MessageOracle) (connected : List String) : List RelayAction :=
  match userInfo with
  | some (username, false) =>
    match (if data.conversationId ≠ "" then o.findConversation
           else Except.ok none) with
    | Except.error _ => [RelayAction.emit MsgEmit.messageError]
    | Except.ok (some conv) => persistAndFanOut username conv o connected
    | Except.ok none =>
      match o.recipientLookup with
      | none => [RelayAction.emit MsgEmit.messageError]
      | some recName =>
        if o.saveNewConversation then
          RelayAction.write WriteOp.saveConversation ::
            persistAndFanOut username ⟨[username, recName]⟩ o connected
        else [RelayAction.write WriteOp.saveConversation,
              RelayAction.emit MsgEmit.messageError]
  | _ => [RelayAction.emit MsgEmit.messageError]

/-! ## The `authenticate` handler (src/services/chatService.ts, lines 77-118)

On a verified token the handler stores the identity on the socket, upserts the
registry entry, emits `authenticated`, and — only for non-guest sessions —
fetches the stored messages addressed to the user's database id whose
timestamp is strictly inside the trailing hour
(`timestamp > Date.now() - 60*60*1000`), sorted ascending, and re-emits each
as `new_message`.  A failed `jwt.verify` (modelled by `decoded = none`) emits
`authentication_error` and changes nothing. -/

structure TokenPayload where
  username : String
  isGuest : Bool
  canCall : Bool
deriving DecidableEq, Repr

structure StoredMessage where
  sender : String
  recipient : String
  content : String
  timestamp : Int
deriving DecidableEq, Repr

inductive AuthEmit where
  | authenticated (isGuest : Bool) (canCall : Bool)
  | newMessage (sender : String) (content : String) (timestamp : Int)
  | authenticationError
deriving DecidableEq, Repr

/-- Ascending-timestamp order used by the `.sort({ timestamp: 1 })` query. -/
def byTimestamp (a b : StoredMessage) : Prop :=
  a.timestamp ≤ b.timestamp

instance : DecidableRel byTimestamp := fun a b =>
  inferInstanceAs (Decidable (a.timestamp ≤ b.timestamp))

instance : IsTotal StoredMessage byTimestamp :=
  ⟨fun a b => Int.le_total a.timestamp b.timestamp⟩

instance : IsTrans StoredMessage byTimestamp :=
  ⟨fun _ _ _ h h2 => le_trans h h2⟩

/-- The collaborator query
`Message.find({ recipient: uid, timestamp: { $gt: Date.now() - 60*60*1000 } }).sort({ timestamp: 1 })`:
keep the stored messages addressed to `uid` whose timestamp lies strictly
inside the trailing hour, in ascending timestamp order. -/
def missedMessagesFor (stored : List StoredMessage) (uid : String)
    (now : Int) : List StoredMessage :=
  List.insertionSort byTimestamp
    (stored.filter fun m =>
      m.recipient == uid && decide (now - 3600000 < m.timestamp))

/-- The `authenticate` handler.  `decoded` is the `jwt.verify` result
(`none` = thrown), `userFound` the database id of the
`User.findOne({ username })` lookup, `stored` the message store and `now` the
clock read by `Date.now()`. -/
def authenticateHandler (decoded : Option TokenPayload)
    (userFound : Option String) (stored : List StoredMessage) (now : Int)
    (sid : String) (st : ChatState) : ChatState × List AuthEmit :=
  match decoded with
  | none => (st, [AuthEmit.authenticationError])
  | some p =>
    let st2 := authenticateRegister sid p.username p.isGuest st
    if p.isGuest then (st2, [AuthEmit.authenticated p.isGuest p.canCall])
    else
      match userFound with
      | none => (st2, [AuthEmit.authenticated p.isGuest p.canCall])
      | some uid =>
        (st2, AuthEmit.authenticated p.isGuest p.canCall ::
          (missedMessagesFor stored uid now).map fun m =>
            AuthEmit.newMessage m.sender m.content m.timestamp)

/-! ## The scheduler tick (src/services/chatService.ts, lines 272-281)

Every 600 ms the tick calls `getPair()`; on a match it builds the room
identifier from the wall clock alone — `` `call-${Date.now()}` `` — and emits
`callMatched` to both sockets, the first entry of the pair as initiator. -/

/-- The room identifier of a tick that read `now` from `Date.now()`. -/
def roomId (now : Nat) : String :=
  "call-" ++ Nat.repr now

/-- One scheduler tick: the produced room (id, initiator entry, responder
entry) and the queue state it leaves behind. -/
def matchTick (now : Nat) (s : QueueState) :
    Except Unit (Option ((String × QueueEntry × QueueEntry) × QueueState)) :=
  match getPair s with
  | Except.error e => Except.error e
  | Except.ok none => Except.ok none
  | Except.ok (some ((u1, u2), s2)) =>
    Except.ok (some ((roomId now, u1, u2), s2))

/-! ## Concrete inputs used by counterexamples and witnesses -/

/-- C2 counterexample: the same identity `"dup"` enqueued twice (two distinct
runtime objects, refs 0 and 1) in the male partition — reachable because
`addToQueue` performs no duplicate detection. -/
def dupA : QueueEntry := ⟨0, "dup", false, "sock1", "male", "any"⟩

def dupB : QueueEntry := ⟨1, "dup", false, "sock2", "male", "any"⟩

/-- C3 scenario entry a: `{id:"a", gender:"female", genderPreference:"any"}`. -/
def entryA : QueueEntry := ⟨0, "a", false, "sockA", "female", "any"⟩

/-- C3 scenario entry b: `{id:"b", gender:"male", genderPreference:"female"}`. -/
def entryB : QueueEntry := ⟨1, "b", false, "sockB", "male", "female"⟩

/-- C2 witness pair: two distinct identities that match. -/
def witX : QueueEntry := ⟨7, "xw", false, "sockX", "male", "any"⟩

def witY : QueueEntry := ⟨8, "yw", false, "sockY", "female", "any"⟩

/-- C8: a queue holding the pair matched by the first colliding tick. -/
def tickQueueA : QueueState :=
  ⟨[⟨2, "p1", false, "sp1", "male", "any"⟩],
   [⟨3, "p2", false, "sp2", "female", "any"⟩], []⟩

/-- C8: a different pair, matched by a later tick that reads the same clock
value. -/
def tickQueueB : QueueState :=
  ⟨[⟨4, "p3", false, "sp3", "male", "any"⟩],
   [⟨5, "p4", false, "sp4", "female", "any"⟩], []⟩

/-- C7: one stored message addressed to `"uid-g"` well inside the trailing
hour of `now = 1300000`. -/
def storedGuestCase : List StoredMessage :=
  [⟨"val", "uid-g", "hello", 1000000⟩]

/-- C7 witness store: the spec's three messages to `"idw"` at T-90min,
T-30min and T-5min with T = 6000000 ms. -/
def storedWitness : List StoredMessage :=
  [⟨"s1", "idw", "m90", 600000⟩,
   ⟨"s2", "idw", "m30", 4200000⟩,
   ⟨"s3", "idw", "m5", 5700000⟩]

/-! ## Helper lemmas -/

theorem keysOf_cons {α : Type} (p : String × α) (r : List (String × α)) :
    keysOf (p :: r) = p.1 :: keysOf r := rfl

theorem keysOf_mapSet_of_mem {α : Type} {k : String} (v : α)
    {r : List (String × α)} (h : k ∈ keysOf r) :
    keysOf (mapSet k v r) = keysOf r := by
  induction r with
  | nil => simp [keysOf] at h
  | cons p rest ih =>
    obtain ⟨k0, v0⟩ := p
    by_cases hk : k0 = k
    · simp [mapSet, hk, keysOf]
    · have h2 : k ∈ keysOf rest := by
        rcases List.mem_cons.mp h with h1 | h1
        · exact absurd h1.symm hk
        · exact h1
      simp [mapSet, hk, keysOf_cons, ih h2]

theorem keysOf_mapSet_of_not_mem {α : Type} {k : String} (v : α)
    {r : List (String × α)} (h : k ∉ keysOf r) :
    keysOf (mapSet k v r) = keysOf r ++ [k] := by
  induction r with
  | nil => rfl
  | cons p rest ih =>
    obtain ⟨k0, v0⟩ := p
    have hk : k0 ≠ k := fun he => h (List.mem_cons.mpr (Or.inl he.symm))
    have h2 : k ∉ keysOf rest := fun hm => h (List.mem_cons_of_mem k0 hm)
    simp [mapSet, hk, keysOf_cons, ih h2]

theorem mapLookup_mapSet_self {α : Type} (k : String) (v : α)
    (r : List (String × α)) : mapLookup k (mapSet k v r) = some v := by
  induction r with
  | nil => simp [mapSet, mapLookup]
  | cons p rest ih =>
    obtain ⟨k0, v0⟩ := p
    by_cases hk : k0 = k
    · simp [mapSet, hk, mapLookup]
    · simp [mapSet, hk, mapLookup, ih]

theorem nodup_keys_mapSet {α : Type} (k : String) (v : α)
    {r : List (String × α)} (h : (keysOf r).Nodup) :
    (keysOf (mapSet k v r)).Nodup := by
  by_cases hk : k ∈ keysOf r
  · rw [keysOf_mapSet_of_mem v hk]; exact h
  · rw [keysOf_mapSet_of_not_mem v hk]
    simp [List.nodup_append, h, hk]

theorem keysOf_mapDelete_sublist {α : Type} (k : String)
    (r : List (String × α)) :
    List.Sublist (keysOf (mapDelete k r)) (keysOf r) := by
  induction r with
  | nil => exact List.Sublist.refl _
  | cons p rest ih =>
    obtain ⟨k0, v0⟩ := p
    by_cases hk : k0 = k
    · simp only [mapDelete, hk, if_pos, keysOf_cons]
      exact List.sublist_cons_self _ _
    · simpa [mapDelete, hk, keysOf_cons] using ih.cons₂ k0

theorem nodup_keys_applyRegOp {r : List (String × Session)} (op : RegOp)
    (h : (keysOf r).Nodup) : (keysOf (applyRegOp r op)).Nodup := by
  cases op with
  | register id sid g => exact nodup_keys_mapSet id ⟨sid, g⟩ h
  | unregister id => exact (keysOf_mapDelete_sublist id r).nodup h

theorem nodup_keys_foldl (ops : List RegOp) :
    ∀ r : List (String × Session), (keysOf r).Nodup →
      (keysOf (List.foldl applyRegOp r ops)).Nodup := by
  induction ops with
  | nil => intro r h; exact h
  | cons op rest ih =>
    intro r h
    exact ih (applyRegOp r op) (nodup_keys_applyRegOp op h)

/-! ## Claim theorems -/

/-- Claim C1: for every sequence of register (authenticate) and unregister
(disconnect) operations run against `connectedUsers`, the registry holds at
most one entry per identity — its key list is duplicate-free — and a second
registration under an identity already present replaces the stored session
(same key set, new value) rather than adding a second entry. -/
theorem registry_at_most_one_session_per_identity :
    (∀ ops : List RegOp, (keysOf (applyRegOps ops)).Nodup) ∧
    (∀ (k : String) (v : Session) (r : List (String × Session)),
      k ∈ keysOf r →
        keysOf (mapSet k v r) = keysOf r ∧
        mapLookup k (mapSet k v r) = some v) := by
  constructor
  · intro ops
    exact nodup_keys_foldl ops [] (by simp [keysOf])
  · intro k v r hk
    exact ⟨keysOf_mapSet_of_mem v hk, mapLookup_mapSet_self k v r⟩

/-- Witness for C1: re-registering the already-present identity `"ua"`
replaces its session without growing the key set. -/
theorem registry_at_most_one_session_per_identity_witness :
    ("ua" ∈ keysOf [("ua", (⟨"s0", true⟩ : Session))]) ∧
    (keysOf (mapSet "ua" (⟨"s9", false⟩ : Session) [("ua", ⟨"s0", true⟩)]) =
        keysOf [("ua", (⟨"s0", true⟩ : Session))] ∧
      mapLookup "ua" (mapSet "ua" (⟨"s9", false⟩ : Session)
        [("ua", ⟨"s0", true⟩)]) = some ⟨"s9", false⟩) :=
  ⟨by decide,
    registry_at_most_one_session_per_identity.2 "ua" ⟨"s9", false⟩
      [("ua", ⟨"s0", true⟩)] (by decide)⟩

/-- Claim C3, counterexample: queueing
`{id:"a", gender:"female", genderPreference:"any"}` and
`{id:"b", gender:"male", genderPreference:"female"}` puts `b` in the male
partition and `a` in the female one; `getPair` scans the male partition
first, so the ordered pair it returns is `(b, a)` — not `(a, b)` as the
claim states (the order is observable: the first component is designated
call initiator). -/
theorem getPair_scenario_returns_b_first :
    ((addToQueue entryA emptyQueues).bind (addToQueue entryB) =
        some ⟨[entryB], [entryA], []⟩) ∧
    getPair ⟨[entryB], [entryA], []⟩ =
        Except.ok (some ((entryB, entryA), emptyQueues)) ∧
    entryB.id ≠ entryA.id :=
  ⟨rfl, rfl, by decide⟩

/-- Claim C3, amended: with exactly those two entries queued, a single
`getPair` call returns the ordered pair `(b, a)` (entry `b` first, because
the male partition is scanned first) and empties both partitions; a
subsequent call on the empty queue returns `none`. -/
theorem getPair_scenario_amended :
    getPair ⟨[entryB], [entryA], []⟩ =
        Except.ok (some ((entryB, entryA), emptyQueues)) ∧
    getPair emptyQueues = Except.ok none :=
  ⟨rfl, rfl⟩

/-- Claim C4: the compatibility test is evaluated only from the candidate
`a`'s perspective.  (1) With preference "any" the search runs over the
concatenation of all partitions with predicate `matchPred a`, which accepts
`b` exactly when `b` is a different object and `b.genderPreference` is "any"
or equals `a.gender`; (2) with a specific preference only the partition named
by `a.genderPreference` is searched, with the same predicate; (3) the
predicate never reads `b.gender`; (4) it never reads `a.genderPreference` —
so `a`'s own preference only selects the searched partition(s) and is never
re-checked against `b.gender`. -/
theorem compatibility_checked_one_directionally :
    (∀ (s : QueueState) (a : QueueEntry),
      findAnyMatch s a = (allEntries s).find? (matchPred a)) ∧
    (∀ (s : QueueState) (a : QueueEntry) (q : List QueueEntry),
      lookupPartition s a.genderPreference = some q →
        findSpecificMatch s a a.genderPreference =
          Except.ok (q.find? (matchPred a))) ∧
    (∀ (a b : QueueEntry) (g : String),
      matchPred a { b with gender := g } = matchPred a b) ∧
    (∀ (a b : QueueEntry) (p : String),
      matchPred { a with genderPreference := p } b = matchPred a b) := by
  refine ⟨?_, ?_, ?_, ?_⟩
  · intro s a
    simp only [allEntries, List.find?_append, findAnyMatch]
    cases s.male.find? (matchPred a) <;>
      cases s.female.find? (matchPred a) <;>
        simp [Option.or]
  · intro s a q hq
    simp [findSpecificMatch, hq]
  · intro a b g; rfl
  · intro a b p; rfl

/-- Witness for C4: a male-preferring entry searches exactly the female
partition with the one-directional predicate. -/
theorem compatibility_checked_one_directionally_witness :
    (lookupPartition ⟨[], [⟨12, "dw", false, "sockD", "female", "male"⟩], []⟩
        (⟨11, "cw", false, "sockC", "male", "female"⟩ : QueueEntry).genderPreference =
      some [⟨12, "dw", false, "sockD", "female", "male"⟩]) ∧
    findSpecificMatch ⟨[], [⟨12, "dw", false, "sockD", "female", "male"⟩], []⟩
        ⟨11, "cw", false, "sockC", "male", "female"⟩
        (⟨11, "cw", false, "sockC", "male", "female"⟩ : QueueEntry).genderPreference =
      Except.ok ([⟨12, "dw", false, "sockD", "female", "male"⟩].find?
        (matchPred ⟨11, "cw", false, "sockC", "male", "female"⟩)) :=
  ⟨rfl,
    compatibility_checked_one_directionally.2.1
      ⟨[], [⟨12, "dw", false, "sockD", "female", "male"⟩], []⟩
      ⟨11, "cw", false, "sockC", "male", "female"⟩
      [⟨12, "dw", false, "sockD", "female", "male"⟩] rfl⟩

/-- Claim C6: a guest session sending `message` gets exactly the guest
`message_error` back — the trace holds no persistence write and no
`new_message` fan-out, whatever the payload, oracle results, or set of live
recipients. -/
theorem guest_message_only_errors :
    ∀ (u : String) (data : MsgData) (o : MessageOracle)
      (connected : List String),
      messageHandler (some (u, true)) data o connected =
        [RelayAction.emit MsgEmit.messageError] :=
  fun _ _ _ _ => rfl

/-- Claim C9: the disconnect handler unregisters by identity
(`socket.username`), not by connection handle.  After identity `x`
authenticates on socket `c1` and re-authenticates on socket `c2`, the
registry maps `x` to the `c2` session; a disconnect of the stale socket `c1`
still deletes `x`'s entry, leaving the live `c2` session unregistered. -/
theorem disconnect_unregisters_by_identity :
    ∀ (x c1 c2 : String) (g1 g2 : Bool), x ≠ "" →
      mapLookup x (authenticateRegister c2 x g2
          (authenticateRegister c1 x g1 initialChatState)).connectedUsers =
        some ⟨c2, g2⟩ ∧
      mapLookup x (handleDisconnect c1 (authenticateRegister c2 x g2
          (authenticateRegister c1 x g1 initialChatState))).connectedUsers =
        none := by
  intro x c1 c2 g1 g2 hx
  by_cases hc : c1 = c2 <;>
    simp [authenticateRegister, initialChatState, handleDisconnect,
      mapSet, mapLookup, mapDelete, hc, hx]

/-- Witness for C9 at concrete identities and socket ids. -/
theorem disconnect_unregisters_by_identity_witness :
    ("xw9" : String) ≠ "" ∧
    (mapLookup "xw9" (authenticateRegister "c2w" "xw9" true
        (authenticateRegister "c1w" "xw9" false initialChatState)).connectedUsers =
      some ⟨"c2w", true⟩ ∧
    mapLookup "xw9" (handleDisconnect "c1w" (authenticateRegister "c2w" "xw9" true
        (authenticateRegister "c1w" "xw9" false initialChatState))).connectedUsers =
      none) :=
  ⟨by decide,
    disconnect_unregisters_by_identity "xw9" "c1w" "c2w" false true (by decide)⟩

/-- Claim C8 (code bug): the room identifier is derived from the wall clock
alone — `` `call-${Date.now()}` `` — so two scheduler ticks that read the
same millisecond value (the system clock is not monotonic) assign the
identical identifier to two different concurrently active rooms, here the
pair (p1, p2) and the pair (p3, p4) at clock reading 1000. -/
theorem wallclock_room_ids_collide :
    matchTick 1000 tickQueueA =
      Except.ok (some ((roomId 1000,
        ⟨2, "p1", false, "sp1", "male", "any"⟩,
        ⟨3, "p2", false, "sp2", "female", "any"⟩), emptyQueues)) ∧
    matchTick 1000 tickQueueB =
      Except.ok (some ((roomId 1000,
        ⟨4, "p3", false, "sp3", "male", "any"⟩,
        ⟨5, "p4", false, "sp4", "female", "any"⟩), emptyQueues)) ∧
    ("p1" : String) ≠ "p3" :=
  ⟨rfl, rfl, by decide⟩

/-- Claim C10: `addToQueue` appends exactly when the entry's gender names one
of the three partitions; for every other gender string
`this.queues[user.gender]` is undefined and the push throws (modelled by
`none`) instead of appending. -/
theorem addToQueue_total_only_on_partition_genders :
    ∀ (u : QueueEntry) (s : QueueState),
      (u.gender ≠ "male" → u.gender ≠ "female" → u.gender ≠ "other" →
        addToQueue u s = none) ∧
      (u.gender = "male" →
        addToQueue u s = some { s with male := s.male ++ [u] }) ∧
      (u.gender = "female" →
        addToQueue u s = some { s with female := s.female ++ [u] }) ∧
      (u.gender = "other" →
        addToQueue u s = some { s with other := s.other ++ [u] }) := by
  intro u s
  refine ⟨?_, ?_, ?_, ?_⟩ <;> intros <;> simp_all [addToQueue]

/-- Witness for C10: a gender outside the three partitions (the user schema
also allows the field to be absent) makes `addToQueue` throw. -/
theorem addToQueue_total_only_on_partition_genders_witness :
    addToQueue ⟨9, "zw", false, "sockZ", "nonbinary", "any"⟩ emptyQueues =
      none :=
  (addToQueue_total_only_on_partition_genders
      ⟨9, "zw", false, "sockZ", "nonbinary", "any"⟩ emptyQueues).1
    (by decide) (by decide) (by decide)

/-- Claim C7, counterexample: a guest session (`isGuest = true`) that
authenticates while a message addressed to its database id sits well inside
the trailing hour receives only the `authenticated` event — no `new_message`
— because the handler guards the whole missed-message block with
`if (!decoded.isGuest)`.  Delivery is therefore *not* independent of the
guest flag. -/
theorem guest_authenticate_delivers_nothing :
    missedMessagesFor storedGuestCase "uid-g" 1300000 = storedGuestCase ∧
    (authenticateHandler (some ⟨"gu", true, true⟩) (some "uid-g")
        storedGuestCase 1300000 "sg" initialChatState).2 =
      [AuthEmit.authenticated true true] :=
  ⟨rfl, rfl⟩

/-- Claim C7, amended: for a *non-guest* session whose user record resolves,
`authenticate` emits `authenticated` followed by exactly the stored messages
addressed to the user's id with timestamp strictly inside the trailing hour
(`timestamp > now - 3600000`), as `new_message` events in ascending
timestamp order; a guest session receives no missed messages. -/
theorem authenticate_delivers_missed_messages (p : TokenPayload)
    (uid : String) (stored : List StoredMessage) (now : Int) (sid : String)
    (st : ChatState) (hg : p.isGuest = false) :
    (authenticateHandler (some p) (some uid) stored now sid st).2 =
      AuthEmit.authenticated p.isGuest p.canCall ::
        (missedMessagesFor stored uid now).map (fun m =>
          AuthEmit.newMessage m.sender m.content m.timestamp) ∧
    (missedMessagesFor stored uid now).Perm
      (stored.filter fun m =>
        m.recipient == uid && decide (now - 3600000 < m.timestamp)) ∧
    (missedMessagesFor stored uid now).Sorted byTimestamp := by
  refine ⟨?_, ?_, ?_⟩
  · simp [authenticateHandler, hg]
  · exact List.perm_insertionSort byTimestamp _
  · exact List.sorted_insertionSort byTimestamp _

/-- Witness for C7 at the spec's own example: messages at T-90min, T-30min
and T-5min with T = 6000000 — the emitted list is `authenticated` followed
by exactly the T-30min and T-5min messages, oldest first. -/
theorem authenticate_delivers_missed_messages_witness :
    ((⟨"w", false, true⟩ : TokenPayload).isGuest = false ∧
      ((authenticateHandler (some ⟨"w", false, true⟩) (some "idw")
          storedWitness 6000000 "sw" initialChatState).2 =
        AuthEmit.authenticated false true ::
          (missedMessagesFor storedWitness "idw" 6000000).map (fun m =>
            AuthEmit.newMessage m.sender m.content m.timestamp) ∧
      (missedMessagesFor storedWitness "idw" 6000000).Perm
        (storedWitness.filter fun m =>
          m.recipient == "idw" && decide ((6000000 : Int) - 3600000 < m.timestamp)) ∧
      (missedMessagesFor storedWitness "idw" 6000000).Sorted byTimestamp)) ∧
    missedMessagesFor storedWitness "idw" 6000000 =
      [⟨"s2", "idw", "m30", 4200000⟩, ⟨"s3", "idw", "m5", 5700000⟩] :=
  ⟨⟨rfl, authenticate_delivers_missed_messages ⟨"w", false, true⟩ "idw"
      storedWitness 6000000 "sw" initialChatState rfl⟩, rfl⟩

theorem persistAndFanOut_update_after_save (u : String) (c : Conv)
    (o : MessageOracle) (conn : List String)
    (h : RelayAction.write WriteOp.updateConversation ∈
      persistAndFanOut u c o conn) :
    List.Sublist
      [RelayAction.write WriteOp.saveMessage,
       RelayAction.write WriteOp.updateConversation]
      (persistAndFanOut u c o conn) := by
  cases hsm : o.saveMessage <;> cases huc : o.updateConversation <;>
    simp only [persistAndFanOut, hsm, huc, if_true, if_false, Bool.false_eq_true] at h ⊢
  · simp at h
  · simp at h
  · exact ((List.nil_sublist _).cons₂ _).cons₂ _
  · exact ((List.nil_sublist _).cons₂ _).cons₂ _

theorem persistAndFanOut_fanout_after_writes (u : String) (c : Conv)
    (o : MessageOracle) (conn : List String) (r : String)
    (h : RelayAction.emit (MsgEmit.newMessage r) ∈
      persistAndFanOut u c o conn) :
    List.Sublist
      [RelayAction.write WriteOp.saveMessage,
       RelayAction.write WriteOp.updateConversation,
       RelayAction.emit (MsgEmit.newMessage r)]
      (persistAndFanOut u c o conn) := by
  cases hsm : o.saveMessage <;> cases huc : o.updateConversation <;>
    simp only [persistAndFanOut, hsm, huc, if_true, if_false, Bool.false_eq_true] at h ⊢
  · simp at h
  · simp at h
  · simp at h
  · have hm : RelayAction.emit (MsgEmit.newMessage r) ∈
        fanOut c.participants u conn ++ [RelayAction.emit MsgEmit.messageSent] := by
      simpa using h
    exact ((List.singleton_sublist.mpr hm).cons₂ _).cons₂ _

theorem persistAndFanOut_failure (u : String) (c : Conv)
    (o : MessageOracle) (conn : List String)
    (h : o.saveMessage = false ∨ o.updateConversation = false) :
    RelayAction.emit MsgEmit.messageError ∈ persistAndFanOut u c o conn ∧
    ∀ r, RelayAction.emit (MsgEmit.newMessage r) ∉
      persistAndFanOut u c o conn := by
  cases hsm : o.saveMessage <;> cases huc : o.updateConversation
  · simp [persistAndFanOut, hsm, huc]
  · simp [persistAndFanOut, hsm, huc]
  · simp [persistAndFanOut, hsm, huc]
  · simp [hsm, huc] at h

/-- The `message` handler trace of a non-guest sender has one of four shapes:
immediate failure, straight persistence, persistence behind a successful
conversation-creating write, or a failed conversation-creating write. -/
theorem messageHandler_shape (u : String) (data : MsgData) (o : MessageOracle)
    (connected : List String) :
    messageHandler (some (u, false)) data o connected =
        [RelayAction.emit MsgEmit.messageError] ∨
    (∃ conv, messageHandler (some (u, false)) data o connected =
        persistAndFanOut u conv o connected) ∨
    (∃ conv, messageHandler (some (u, false)) data o connected =
        RelayAction.write WriteOp.saveConversation ::
          persistAndFanOut u conv o connected) ∨
    messageHandler (some (u, false)) data o connected =
        [RelayAction.write WriteOp.saveConversation,
         RelayAction.emit MsgEmit.messageError] := by
  rw [messageHandler]
  rcases hres : (if data.conversationId ≠ "" then o.findConversation
                 else Except.ok none) with e | co
  · exact Or.inl rfl
  · rcases co with _ | conv
    · rcases hrl : o.recipientLookup with _ | recName
      · exact Or.inl rfl
      · cases hsc : o.saveNewConversation
        · exact Or.inr (Or.inr (Or.inr (by simp [hsc])))
        · exact Or.inr (Or.inr (Or.inl ⟨⟨[u, recName]⟩, by simp [hsc]⟩))
    · exact Or.inr (Or.inl ⟨conv, rfl⟩)

/-- Claim C5: for a `message` event from an authenticated non-guest sender,
(1) whenever the conversation update is attempted, the message save was
attempted before it; (2) every `new_message` fan-out emit is preceded by both
persistence attempts; (3) if either of the two persistence writes fails, the
sender gets `message_error` and no recipient gets `new_message`. -/
theorem message_persists_before_fanout :
    ∀ (u : String) (data : MsgData) (o : MessageOracle)
      (connected : List String),
      (RelayAction.write WriteOp.updateConversation ∈
          messageHandler (some (u, false)) data o connected →
        List.Sublist
          [RelayAction.write WriteOp.saveMessage,
           RelayAction.write WriteOp.updateConversation]
          (messageHandler (some (u, false)) data o connected)) ∧
      (∀ r, RelayAction.emit (MsgEmit.newMessage r) ∈
          messageHandler (some (u, false)) data o connected →
        List.Sublist
          [RelayAction.write WriteOp.saveMessage,
           RelayAction.write WriteOp.updateConversation,
           RelayAction.emit (MsgEmit.newMessage r)]
          (messageHandler (some (u, false)) data o connected)) ∧
      ((o.saveMessage = false ∨ o.updateConversation = false) →
        RelayAction.emit MsgEmit.messageError ∈
          messageHandler (some (u, false)) data o connected ∧
        ∀ r, RelayAction.emit (MsgEmit.newMessage r) ∉
          messageHandler (some (u, false)) data o connected) := by
  intro u data o connected
  rcases messageHandler_shape u data o connected with
    heq | ⟨conv, heq⟩ | ⟨conv, heq⟩ | heq <;> rw [heq]
  · refine ⟨fun h => by simp at h, fun r h => by simp at h, fun _ => ⟨?_, ?_⟩⟩
    · simp
    · intro r; simp
  · exact ⟨persistAndFanOut_update_after_save u conv o connected,
      persistAndFanOut_fanout_after_writes u conv o connected,
      persistAndFanOut_failure u conv o connected⟩
  · refine ⟨?_, ?_, ?_⟩
    · intro h
      have h2 : RelayAction.write WriteOp.updateConversation ∈
          persistAndFanOut u conv o connected := by simpa using h
      exact (persistAndFanOut_update_after_save u conv o connected h2).cons _
    · intro r h
      have h2 : RelayAction.emit (MsgEmit.newMessage r) ∈
          persistAndFanOut u conv o connected := by simpa using h
      exact (persistAndFanOut_fanout_after_writes u conv o connected r h2).cons _
    · intro hf
      obtain ⟨he, hn⟩ := persistAndFanOut_failure u conv o connected hf
      exact ⟨List.mem_cons_of_mem _ he,
        fun r => by simp [hn r]⟩
  · refine ⟨fun h => by simp at h, fun r h => by simp at h, fun _ => ⟨?_, ?_⟩⟩
    · simp
    · intro r; simp

/-- Witness for C5: with a resolvable conversation but a failing
`message.save()`, the sender gets `message_error` and the live recipient
`"rw"` gets no `new_message`. -/
theorem message_persists_before_fanout_witness :
    ((⟨Except.ok (some ⟨["uw", "rw"]⟩), some "rw", true, false, true⟩ :
        MessageOracle).saveMessage = false ∨
      (⟨Except.ok (some ⟨["uw", "rw"]⟩), some "rw", true, false, true⟩ :
        MessageOracle).updateConversation = false) ∧
    RelayAction.emit MsgEmit.messageError ∈
      messageHandler (some ("uw", false)) ⟨"cid", "hi", "rw"⟩
        ⟨Except.ok (some ⟨["uw", "rw"]⟩), some "rw", true, false, true⟩
        ["rw"] ∧
    RelayAction.emit (MsgEmit.newMessage "rw") ∉
      messageHandler (some ("uw", false)) ⟨"cid", "hi", "rw"⟩
        ⟨Except.ok (some ⟨["uw", "rw"]⟩), some "rw", true, false, true⟩
        ["rw"] :=
  ⟨Or.inl rfl,
    ((message_persists_before_fanout "uw" ⟨"cid", "hi", "rw"⟩
        ⟨Except.ok (some ⟨["uw", "rw"]⟩), some "rw", true, false, true⟩
        ["rw"]).2.2 (Or.inl rfl)).1,
    ((message_persists_before_fanout "uw" ⟨"cid", "hi", "rw"⟩
        ⟨Except.ok (some ⟨["uw", "rw"]⟩), some "rw", true, false, true⟩
        ["rw"]).2.2 (Or.inl rfl)).2 "rw"⟩

theorem mem_allEntries_of_male {s : QueueState} {v : QueueEntry}
    (h : v ∈ s.male) : v ∈ allEntries s := by simp [allEntries, h]

theorem mem_allEntries_of_female {s : QueueState} {v : QueueEntry}
    (h : v ∈ s.female) : v ∈ allEntries s := by simp [allEntries, h]

theorem mem_allEntries_of_other {s : QueueState} {v : QueueEntry}
    (h : v ∈ s.other) : v ∈ allEntries s := by simp [allEntries, h]

theorem findAnyMatch_sound {s : QueueState} {u m : QueueEntry}
    (h : findAnyMatch s u = some m) :
    m ∈ allEntries s ∧ matchPred u m = true := by
  unfold findAnyMatch at h
  cases h1 : s.male.find? (matchPred u) with
  | some m1 =>
    simp only [h1, Option.some.injEq] at h
    subst h
    exact ⟨mem_allEntries_of_male (List.mem_of_find?_eq_some h1),
      List.find?_some h1⟩
  | none =>
    simp only [h1] at h
    cases h2 : s.female.find? (matchPred u) with
    | some m2 =>
      simp only [h2, Option.some.injEq] at h
      subst h
      exact ⟨mem_allEntries_of_female (List.mem_of_find?_eq_some h2),
        List.find?_some h2⟩
    | none =>
      simp only [h2] at h
      exact ⟨mem_allEntries_of_other (List.mem_of_find?_eq_some h),
        List.find?_some h⟩

theorem lookupPartition_cases {s : QueueState} {g : String}
    {q : List QueueEntry} (h : lookupPartition s g = some q) :
    q = s.male ∨ q = s.female ∨ q = s.other := by
  unfold lookupPartition at h
  by_cases h1 : g = "male"
  · rw [if_pos h1] at h; exact Or.inl (Option.some.inj h).symm
  · rw [if_neg h1] at h
    by_cases h2 : g = "female"
    · rw [if_pos h2] at h; exact Or.inr (Or.inl (Option.some.inj h).symm)
    · rw [if_neg h2] at h
      by_cases h3 : g = "other"
      · rw [if_pos h3] at h; exact Or.inr (Or.inr (Option.some.inj h).symm)
      · rw [if_neg h3] at h; exact Option.noConfusion h

theorem findSpecificMatch_sound {s : QueueState} {u m : QueueEntry}
    {p : String} (h : findSpecificMatch s u p = Except.ok (some m)) :
    m ∈ allEntries s ∧ matchPred u m = true := by
  unfold findSpecificMatch at h
  cases hq : lookupPartition s p with
  | none =>
    simp only [hq] at h
    exact Except.noConfusion h
  | some q =>
    simp only [hq, Except.ok.injEq] at h
    have hmq : m ∈ q := List.mem_of_find?_eq_some h
    have hpred : matchPred u m = true := List.find?_some h
    rcases lookupPartition_cases hq with he | he | he <;> subst he
    · exact ⟨mem_allEntries_of_male hmq, hpred⟩
    · exact ⟨mem_allEntries_of_female hmq, hpred⟩
    · exact ⟨mem_allEntries_of_other hmq, hpred⟩

theorem scanEntries_sound {s : QueueState} {q : List QueueEntry}
    {u1 u2 : QueueEntry} {s2 : QueueState}
    (h : scanEntries s q = Except.ok (some ((u1, u2), s2))) :
    u1 ∈ q ∧ u2 ∈ allEntries s ∧ matchPred u1 u2 = true ∧
      s2 = removeFromQueue u2.id (removeFromQueue u1.id s) := by
  induction q with
  | nil => simp [scanEntries] at h
  | cons a rest ih =>
    simp only [scanEntries] at h
    by_cases hp : a.genderPreference = "any"
    · rw [if_pos hp] at h
      cases hfa : findAnyMatch s a with
      | none =>
        rw [hfa] at h
        obtain ⟨h1, h2, h3, h4⟩ := ih h
        exact ⟨List.mem_cons_of_mem a h1, h2, h3, h4⟩
      | some m =>
        rw [hfa] at h
        simp only [Except.ok.injEq, Option.some.injEq, Prod.mk.injEq] at h
        obtain ⟨⟨rfl, rfl⟩, rfl⟩ := h
        obtain ⟨hmem, hpred⟩ := findAnyMatch_sound hfa
        exact ⟨List.mem_cons_self a rest, hmem, hpred, rfl⟩
    · rw [if_neg hp] at h
      cases hfs : findSpecificMatch s a a.genderPreference with
      | error e => rw [hfs] at h; exact Except.noConfusion h
      | ok popt =>
        cases popt with
        | none =>
          rw [hfs] at h
          obtain ⟨h1, h2, h3, h4⟩ := ih h
          exact ⟨List.mem_cons_of_mem a h1, h2, h3, h4⟩
        | some m =>
          rw [hfs] at h
          simp only [Except.ok.injEq, Option.some.injEq, Prod.mk.injEq] at h
          obtain ⟨⟨rfl, rfl⟩, rfl⟩ := h
          obtain ⟨hmem, hpred⟩ := findSpecificMatch_sound hfs
          exact ⟨List.mem_cons_self a rest, hmem, hpred, rfl⟩

theorem getPair_sound {s : QueueState} {u1 u2 : QueueEntry} {s2 : QueueState}
    (h : getPair s = Except.ok (some ((u1, u2), s2))) :
    u1 ∈ allEntries s ∧ u2 ∈ allEntries s ∧ matchPred u1 u2 = true ∧
      s2 = removeFromQueue u2.id (removeFromQueue u1.id s) := by
  unfold getPair at h
  cases h1 : scanEntries s s.male with
  | error e => rw [h1] at h; exact Except.noConfusion h
  | ok o1 =>
    cases o1 with
    | some r =>
      rw [h1] at h
      simp only [Except.ok.injEq, Option.some.injEq] at h
      subst h
      obtain ⟨ha, hb, hc, hd⟩ := scanEntries_sound h1
      exact ⟨mem_allEntries_of_male ha, hb, hc, hd⟩
    | none =>
      rw [h1] at h
      cases h2 : scanEntries s s.female with
      | error e => rw [h2] at h; exact Except.noConfusion h
      | ok o2 =>
        cases o2 with
        | some r =>
          rw [h2] at h
          simp only [Except.ok.injEq, Option.some.injEq] at h
          subst h
          obtain ⟨ha, hb, hc, hd⟩ := scanEntries_sound h2
          exact ⟨mem_allEntries_of_female ha, hb, hc, hd⟩
        | none =>
          rw [h2] at h
          obtain ⟨ha, hb, hc, hd⟩ := scanEntries_sound h
          exact ⟨mem_allEntries_of_other ha, hb, hc, hd⟩

theorem removeFirstById_of_no_match {uid : String} {l : List QueueEntry}
    (h : ∀ v ∈ l, v.id ≠ uid) : removeFirstById uid l = l := by
  induction l with
  | nil => rfl
  | cons a rest ih =>
    have ha : a.id ≠ uid := h a (List.mem_cons_self a rest)
    simp only [removeFirstById, if_neg ha]
    rw [ih fun v hv => h v (List.mem_cons_of_mem a hv)]

theorem perm_removeFirstById {l : List QueueEntry} {u : QueueEntry}
    (hmem : u ∈ l) (hp : l.Pairwise fun a b => a.id ≠ b.id) :
    l.Perm (u :: removeFirstById u.id l) := by
  induction l with
  | nil => cases hmem
  | cons a rest ih =>
    obtain ⟨hfa, hp2⟩ := List.pairwise_cons.mp hp
    rcases List.mem_cons.mp hmem with rfl | hmem2
    · simp only [removeFirstById, if_pos rfl]
      exact List.Perm.refl _
    · have hane : a.id ≠ u.id := hfa u hmem2
      simp only [removeFirstById, if_neg hane]
      exact ((ih hmem2 hp2).cons a).trans (List.Perm.swap u a _)

theorem perm_removeFromQueue {s : QueueState} {u : QueueEntry}
    (hu : u ∈ allEntries s) (hs : UniqueIds s) :
    (allEntries s).Perm (u :: allEntries (removeFromQueue u.id s)) := by
  obtain ⟨hpMF, hpO, hcross1⟩ := List.pairwise_append.mp hs
  obtain ⟨hpM, hpF, hcross2⟩ := List.pairwise_append.mp hpMF
  rcases List.mem_append.mp hu with hMF | hO
  · rcases List.mem_append.mp hMF with hM | hF
    · have hF2 : ∀ v ∈ s.female, v.id ≠ u.id :=
        fun v hv => (hcross2 u hM v hv).symm
      have hO2 : ∀ v ∈ s.other, v.id ≠ u.id :=
        fun v hv => (hcross1 u (List.mem_append_left s.female hM) v hv).symm
      simp only [allEntries, removeFromQueue,
        removeFirstById_of_no_match hF2, removeFirstById_of_no_match hO2]
      exact ((perm_removeFirstById hM hpM).append_right s.female).append_right
        s.other
    · have hM2 : ∀ v ∈ s.male, v.id ≠ u.id :=
        fun v hv => hcross2 v hv u hF
      have hO2 : ∀ v ∈ s.other, v.id ≠ u.id :=
        fun v hv => (hcross1 u (List.mem_append_right s.male hF) v hv).symm
      simp only [allEntries, removeFromQueue,
        removeFirstById_of_no_match hM2, removeFirstById_of_no_match hO2]
      exact (((perm_removeFirstById hF hpF).append_left s.male).append_right
        s.other).trans (List.perm_middle.append_right s.other)
  · have hM2 : ∀ v ∈ s.male, v.id ≠ u.id :=
      fun v hv => hcross1 v (List.mem_append_left s.female hv) u hO
    have hF2 : ∀ v ∈ s.female, v.id ≠ u.id :=
      fun v hv => hcross1 v (List.mem_append_right s.male hv) u hO
    simp only [allEntries, removeFromQueue,
      removeFirstById_of_no_match hM2, removeFirstById_of_no_match hF2]
    exact ((perm_removeFirstById hO hpO).append_left
      (s.male ++ s.female)).trans List.perm_middle

theorem uniqueIds_removeFromQueue {s : QueueState} {u : QueueEntry}
    (hu : u ∈ allEntries s) (hs : UniqueIds s) :
    UniqueIds (removeFromQueue u.id s) := by
  have hperm := perm_removeFromQueue hu hs
  have hcons : (u :: allEntries (removeFromQueue u.id s)).Pairwise
      (fun a b => a.id ≠ b.id) :=
    (List.Perm.pairwise_iff (fun hab => hab.symm) hperm).mp hs
  exact (List.pairwise_cons.mp hcons).2

/-- Claim C2, counterexample to the claim as stated: `addToQueue` performs no
duplicate detection, so the same identity `"dup"` can be queued twice (two
distinct runtime objects); `getPair` then returns a pair holding that one
identity twice — the `u !== user` guard only rules out the same object, not
the same identity. -/
theorem getPair_same_identity_counterexample :
    ((addToQueue dupA emptyQueues).bind (addToQueue dupB) =
        some ⟨[dupA, dupB], [], []⟩) ∧
    getPair ⟨[dupA, dupB], [], []⟩ =
        Except.ok (some ((dupA, dupB), emptyQueues)) ∧
    dupA.id = dupB.id :=
  ⟨rfl, rfl, rfl⟩

/-- Claim C2, amended: on every queue state whose entries carry pairwise
distinct identities (the intended invariant — each identity queued at most
once), a successful `getPair` returns two *different* identities, both taken
from the queue, and the state it returns differs from the input state by
exactly the removal of those two entries: nothing else vanishes and no entry
is matched twice within the call. -/
theorem getPair_distinct_identities_and_atomic_removal
    (s : QueueState) (hs : UniqueIds s) (u1 u2 : QueueEntry)
    (s2 : QueueState)
    (h : getPair s = Except.ok (some ((u1, u2), s2))) :
    u1.id ≠ u2.id ∧ u1 ∈ allEntries s ∧ u2 ∈ allEntries s ∧
      (allEntries s).Perm (u1 :: u2 :: allEntries s2) := by
  obtain ⟨hm1, hm2, hmp, hs2⟩ := getPair_sound h
  have href : u2.ref ≠ u1.ref := by
    simp only [matchPred, Bool.and_eq_true, bne_iff_ne] at hmp
    exact hmp.1
  have hvne : u1 ≠ u2 := fun he => href (by rw [he])
  have hidne : u1.id ≠ u2.id :=
    List.Pairwise.forall (fun _ _ hab => hab.symm) hs hm1 hm2 hvne
  have hperm1 : (allEntries s).Perm
      (u1 :: allEntries (removeFromQueue u1.id s)) :=
    perm_removeFromQueue hm1 hs
  have hs1 : UniqueIds (removeFromQueue u1.id s) :=
    uniqueIds_removeFromQueue hm1 hs
  have hm2b : u2 ∈ allEntries (removeFromQueue u1.id s) := by
    rcases List.mem_cons.mp (hperm1.mem_iff.mp hm2) with he | hm
    · exact absurd he.symm hvne
    · exact hm
  have hperm2 : (allEntries (removeFromQueue u1.id s)).Perm
      (u2 :: allEntries (removeFromQueue u2.id (removeFromQueue u1.id s))) :=
    perm_removeFromQueue hm2b hs1
  refine ⟨hidne, hm1, hm2, ?_⟩
  rw [hs2]
  exact hperm1.trans (hperm2.cons u1)

/-- Witness for C2 (amended): a two-entry queue with distinct identities
matches them, removes both, and leaves the empty queue. -/
theorem getPair_distinct_identities_and_atomic_removal_witness :
    UniqueIds ⟨[witX], [witY], []⟩ ∧
    (witX.id ≠ witY.id ∧ witX ∈ allEntries ⟨[witX], [witY], []⟩ ∧
      witY ∈ allEntries ⟨[witX], [witY], []⟩ ∧
      (allEntries ⟨[witX], [witY], []⟩).Perm
        (witX :: witY :: allEntries emptyQueues)) :=
  ⟨by decide,
    getPair_distinct_identities_and_atomic_removal ⟨[witX], [witY], []⟩
      (by decide) witX witY emptyQueues rfl⟩
